import Mathlib

/-!
Verification of the Logstash startup-time measurement script (src/main.py)
against its natural-language specification.

The script is modelled shallowly:
* machine floating-point durations are modelled as rationals (ℚ);
* each call of the external container runtime is an abstract outcome
  (`TrialResult`): either a successful run together with the two
  wall-clock readings taken around it, or a non-zero-exit failure
  carrying the return code, or any other exception;
* the observable behaviour of one configuration is a list of `Event`s
  mirroring the prints, appends and sleeps of `measure_startup_time`;
* `statistics.stdev` involves a square root, which has no exact rational
  counterpart, so it is passed in as an abstract function `stdevFn`;
  every claim about it concerns only the guard around the call.
-/

namespace LogstashBench

/-- Docker image constant (src/main.py line 11). -/
def LOGSTASH_DOCKER_IMAGE : String := "docker.elastic.co/logstash/logstash:8.17.4"

/-- Number of trials per configuration (src/main.py line 13). -/
def NUM_RUNS : Nat := 10

/-- Minimal pipeline configuration passed to the container (src/main.py line 17). -/
def LOGSTASH_PIPELINE_CONFIG : String :=
  "input \x7b stdin \x7b\x7d \x7d filter \x7b\x7d output \x7b stdout \x7b\x7d \x7d"

/-- The configured (tuning-flags, label) pairs (src/main.py lines 20-23). -/
def JVM_OPTIONS_SETS : List (Option String × String) :=
  [(none, "1. baseline"),
   (some "-Djruby.compile.invokedynamic=false -Djruby.compile.mode=OFF -XX:+TieredCompilation -XX:TieredStopAtLevel=1",
    "2. with options")]

/-- Python truthiness of the `jvm_opts` argument (`if jvm_opts:` on line 55):
`None` and the empty string are falsy, every other string is truthy. -/
def jvmTruthy : Option String → Bool
  | none => false
  | some s => s != ""

/-- The container-runtime command line built on src/main.py lines 52-60:
the fixed head, then (only when `jvm_opts` is truthy) the
environment-variable pair, then the image name, then the pipeline
arguments. -/
def base_command (jvm_opts : Option String) : List String :=
  (["docker", "run", "--rm", "-i"]
    ++ (if jvmTruthy jvm_opts then ["-e", "LS_JAVA_OPTS=" ++ jvm_opts.getD ""] else []))
    ++ [LOGSTASH_DOCKER_IMAGE]
    ++ ["-e", LOGSTASH_PIPELINE_CONFIG]

/-- Characters of the environment-variable assignment head. -/
def envFlagChars : List Char := "LS_JAVA_OPTS=".data

/-- Whether a command-line token is the `LS_JAVA_OPTS=...` assignment. -/
def isEnvFlag (a : String) : Bool := envFlagChars.isPrefixOf a.data

/-- Whether a command line contains the adjacent pair
`-e LS_JAVA_OPTS=...`. -/
def hasEnvFlagPair : List String → Bool
  | a :: b :: rest => (a == "-e" && isEnvFlag b) || hasEnvFlagPair (b :: rest)
  | _ => false

/-- Outcome of one `subprocess.run` of the container (src/main.py lines 70-76),
as observed by the script: success together with the two `perf_counter`
readings, a `CalledProcessError` with its return code, or any other
exception. -/
inductive TrialResult where
  | ok (startTime endTime : ℚ)
  | calledProcessError (returncode : Int)
  | otherError
deriving DecidableEq

/-- The statistics record printed on src/main.py lines 103-113. -/
structure Stats where
  count : Nat
  minT : ℚ
  maxT : ℚ
  avgT : ℚ
  stdDev : ℚ
deriving DecidableEq

/-- Python `min` over a non-empty list ( `min(durations)` , line 103).
The empty case is unreachable in the script (guarded on line 98). -/
def pyMin : List ℚ → ℚ
  | [] => 0
  | x :: xs => xs.foldl min x

/-- Python `max` over a non-empty list ( `max(durations)` , line 104). -/
def pyMax : List ℚ → ℚ
  | [] => 0
  | x :: xs => xs.foldl max x

/-- `statistics.mean` (line 105): the exact arithmetic mean. -/
def pyMean (ds : List ℚ) : ℚ := ds.sum / (ds.length : ℚ)

/-- The statistics computed on src/main.py lines 103-106.  `stdevFn`
abstracts `statistics.stdev`; the source guards it with
`if len(durations) > 1 ... else 0.0`. -/
def mkStats (stdevFn : List ℚ → ℚ) (ds : List ℚ) : Stats :=
  { count := ds.length
    minT := pyMin ds
    maxT := pyMax ds
    avgT := pyMean ds
    stdDev := if ds.length > 1 then stdevFn ds else 0 }

/-- Observable events of one configuration run: loop prints, duration
appends, sleeps, the two failure reports, the no-data report and the
statistics report. -/
inductive Event where
  | trialAttempt (i : Nat)
  | trialDone (i : Nat) (d : ℚ)
  | sleepSec (n : Nat)
  | reportCalledProcessError (i : Nat) (rc : Int) (cmd : List String)
  | reportUnexpectedError (i : Nat)
  | reportNoData
  | reportStats (s : Stats)
deriving DecidableEq

/-- The `for i in range(1, NUM_RUNS + 1)` loop of src/main.py lines 62-96,
recursing on the number of remaining iterations.  Returns the emitted
events and, unless a failure aborted the loop, the collected durations
(each appended as `end_time - start_time`, line 82-83); a successful
iteration sleeps one second (line 96). -/
def trialLoop (env : Nat → TrialResult) (cmd : List String) :
    Nat → Nat → List Event × Option (List ℚ)
  | _, 0 => ([], some [])
  | i, rem + 1 =>
    match env i with
    | TrialResult.ok s e =>
      (Event.trialAttempt i :: Event.trialDone i (e - s) :: Event.sleepSec 1 ::
        (trialLoop env cmd (i + 1) rem).1,
       ((trialLoop env cmd (i + 1) rem).2).map (fun ds => (e - s) :: ds))
    | TrialResult.calledProcessError rc =>
      ([Event.trialAttempt i, Event.reportCalledProcessError i rc cmd], none)
    | TrialResult.otherError =>
      ([Event.trialAttempt i, Event.reportUnexpectedError i], none)

/-- The statistics section of src/main.py lines 98-116: the emptiness
guard, then either the no-data report and return, or the statistics
report followed by the five-second sleep. -/
def reportSection (stdevFn : List ℚ → ℚ) (ds : List ℚ) : List Event :=
  if ds.isEmpty then [Event.reportNoData]
  else [Event.reportStats (mkStats stdevFn ds), Event.sleepSec 5]

/-- `measure_startup_time` (src/main.py lines 40-116) for one
configuration, as the list of events it emits: the trial loop over
`env`, then (only when no trial failed) the statistics section. -/
def measure_startup_time (env : Nat → TrialResult) (stdevFn : List ℚ → ℚ)
    (jvm_opts : Option String) : List Event :=
  match (trialLoop env (base_command jvm_opts) 1 NUM_RUNS).2 with
  | none => (trialLoop env (base_command jvm_opts) 1 NUM_RUNS).1
  | some ds =>
    (trialLoop env (base_command jvm_opts) 1 NUM_RUNS).1 ++ reportSection stdevFn ds

/-- Outcome of `subprocess.run(["docker", "info"], check=True)`
(src/main.py line 30). -/
inductive DockerInfoOutcome where
  | success
  | fileNotFound
  | calledProcessError
deriving DecidableEq

/-- `check_docker` (src/main.py lines 27-38): true exactly when
`docker info` succeeds. -/
def check_docker : DockerInfoOutcome → Bool
  | DockerInfoOutcome.success => true
  | DockerInfoOutcome.fileNotFound => false
  | DockerInfoOutcome.calledProcessError => false

/-- Number of error lines `check_docker` prints to stderr
(src/main.py lines 33, 36-37). -/
def check_docker_error_lines : DockerInfoOutcome → Nat
  | DockerInfoOutcome.success => 0
  | DockerInfoOutcome.fileNotFound => 1
  | DockerInfoOutcome.calledProcessError => 2

/-- The `__main__` block (src/main.py lines 119-138): if `check_docker`
fails, exit with code 1 before any measurement; otherwise measure every
configured option set in order and finish with exit code 0 (implicit).
`env k` is the trial environment of the k-th configuration. -/
def pymain (d : DockerInfoOutcome) (env : Nat → Nat → TrialResult)
    (stdevFn : List ℚ → ℚ) : Nat × List (List Event) :=
  if check_docker d then
    (0, JVM_OPTIONS_SETS.enum.map
      (fun p => measure_startup_time (env p.1) stdevFn p.2.1))
  else
    (1, [])

/-! ### Helper lemmas -/

theorem isPrefixOf_append_self (l t : List Char) : l.isPrefixOf (l ++ t) = true := by
  induction l with
  | nil => simp [List.isPrefixOf]
  | cons a l ih => simp [List.isPrefixOf, ih]

theorem isEnvFlag_assignment (s : String) :
    isEnvFlag ("LS_JAVA_OPTS=" ++ s) = true := by
  simp [isEnvFlag, envFlagChars, String.data_append, isPrefixOf_append_self]

theorem jvmTruthy_some_iff (s : String) : jvmTruthy (some s) = true ↔ s ≠ "" := by
  simp [jvmTruthy]

theorem trialLoop_no_reports (env : Nat → TrialResult) (cmd : List String) :
    ∀ rem i, (∀ s, Event.reportStats s ∉ (trialLoop env cmd i rem).1) ∧
      Event.reportNoData ∉ (trialLoop env cmd i rem).1 ∧
      (∀ n, Event.sleepSec n ∈ (trialLoop env cmd i rem).1 → n = 1) := by
  intro rem
  induction rem with
  | zero =>
    intro i
    simp [trialLoop]
  | succ rem ih =>
    intro i
    rcases ih (i + 1) with ⟨ihs, ihn, ihsl⟩
    cases h : env i with
    | ok s e =>
      refine ⟨?_, ?_, ?_⟩
      · intro st hst
        simp only [trialLoop, h, List.mem_cons] at hst
        rcases hst with hst | hst | hst | hst <;> first
          | exact Event.noConfusion hst
          | exact ihs st hst
      · intro hn
        simp only [trialLoop, h, List.mem_cons] at hn
        rcases hn with hn | hn | hn | hn <;> first
          | exact Event.noConfusion hn
          | exact ihn hn
      · intro n hn
        simp only [trialLoop, h, List.mem_cons] at hn
        rcases hn with hn | hn | hn | hn
        · exact Event.noConfusion hn
        · exact Event.noConfusion hn
        · exact (Event.sleepSec.injEq ..).mp hn
        · exact ihsl n hn
    | calledProcessError rc =>
      refine ⟨?_, ?_, ?_⟩ <;> simp [trialLoop, h]
    | otherError =>
      refine ⟨?_, ?_, ?_⟩ <;> simp [trialLoop, h]

theorem trialLoop_complete_length (env : Nat → TrialResult) (cmd : List String) :
    ∀ rem i ds, (trialLoop env cmd i rem).2 = some ds → ds.length = rem := by
  intro rem
  induction rem with
  | zero =>
    intro i ds h
    simp [trialLoop] at h
    simp [← h]
  | succ rem ih =>
    intro i ds h
    cases henv : env i with
    | ok s e =>
      simp only [trialLoop, henv] at h
      rcases Option.map_eq_some'.mp h with ⟨ds', hds', rfl⟩
      simp [ih (i + 1) ds' hds']
    | calledProcessError rc =>
      simp [trialLoop, henv] at h
    | otherError =>
      simp [trialLoop, henv] at h

theorem trialLoop_head (env : Nat → TrialResult) (cmd : List String)
    (rem i : Nat) (h : 1 ≤ rem) :
    ((trialLoop env cmd i rem).1).head? = some (Event.trialAttempt i) := by
  match rem, h with
  | rem + 1, _ =>
    cases henv : env i <;> simp [trialLoop, henv]

theorem trialLoop_abort (env : Nat → TrialResult) (cmd : List String) :
    ∀ rem i j, i ≤ j → j < i + rem →
      (∀ k, i ≤ k → k < j → ∃ s e, env k = TrialResult.ok s e) →
      (∀ s e, env j ≠ TrialResult.ok s e) →
      (trialLoop env cmd i rem).2 = none ∧
      Event.trialAttempt j ∈ (trialLoop env cmd i rem).1 ∧
      (∀ rc, env j = TrialResult.calledProcessError rc →
        Event.reportCalledProcessError j rc cmd ∈ (trialLoop env cmd i rem).1) ∧
      (env j = TrialResult.otherError →
        Event.reportUnexpectedError j ∈ (trialLoop env cmd i rem).1) ∧
      (∀ k, j < k → Event.trialAttempt k ∉ (trialLoop env cmd i rem).1) := by
  intro rem
  induction rem with
  | zero =>
    intro i j hij hlt _ _
    omega
  | succ rem ih =>
    intro i j hij hlt hok hfail
    rcases Nat.eq_or_lt_of_le hij with heq | hltij
    · subst heq
      cases henv : env i with
      | ok s e => exact absurd henv (hfail s e)
      | calledProcessError rc =>
        refine ⟨by simp [trialLoop, henv], by simp [trialLoop, henv], ?_, ?_, ?_⟩
        · intro rc' hrc'
          rcases (TrialResult.calledProcessError.injEq ..).mp hrc' with rfl
          simp [trialLoop, henv]
        · intro hoth
          exact TrialResult.noConfusion hoth
        · intro k hk
          simp only [trialLoop, henv, List.mem_cons]
          rintro (h | h | h)
          · exact absurd ((Event.trialAttempt.injEq ..).mp h) (by omega)
          · exact Event.noConfusion h
          · exact (List.not_mem_nil _ h).elim
      | otherError =>
        refine ⟨by simp [trialLoop, henv], by simp [trialLoop, henv], ?_, ?_, ?_⟩
        · intro rc' hrc'
          exact TrialResult.noConfusion hrc'
        · intro _
          simp [trialLoop, henv]
        · intro k hk
          simp only [trialLoop, henv, List.mem_cons]
          rintro (h | h | h)
          · exact absurd ((Event.trialAttempt.injEq ..).mp h) (by omega)
          · exact Event.noConfusion h
          · exact (List.not_mem_nil _ h).elim
    · rcases hok i (Nat.le_refl i) hltij with ⟨s, e, henv⟩
      have hrec := ih (i + 1) j hltij (by omega)
        (fun k hk hk' => hok k (by omega) hk') hfail
      rcases hrec with ⟨h2, hmem, hcpe, hoth, hnot⟩
      refine ⟨by simp [trialLoop, henv, h2], ?_, ?_, ?_, ?_⟩
      · simp only [trialLoop, henv, List.mem_cons]
        exact Or.inr (Or.inr (Or.inr hmem))
      · intro rc hrc
        simp only [trialLoop, henv, List.mem_cons]
        exact Or.inr (Or.inr (Or.inr (hcpe rc hrc)))
      · intro h
        simp only [trialLoop, henv, List.mem_cons]
        exact Or.inr (Or.inr (Or.inr (hoth h)))
      · intro k hk
        simp only [trialLoop, henv, List.mem_cons]
        rintro (h | h | h | h)
        · exact absurd ((Event.trialAttempt.injEq ..).mp h) (by omega)
        · exact Event.noConfusion h
        · exact Event.noConfusion h
        · exact hnot k hk h

theorem trialLoop_done_events (env : Nat → TrialResult) (cmd : List String) :
    ∀ rem i k d, Event.trialDone k d ∈ (trialLoop env cmd i rem).1 →
      ∃ s e, env k = TrialResult.ok s e ∧ d = e - s := by
  intro rem
  induction rem with
  | zero =>
    intro i k d h
    simp [trialLoop] at h
  | succ rem ih =>
    intro i k d h
    cases henv : env i with
    | ok s e =>
      simp only [trialLoop, henv, List.mem_cons] at h
      rcases h with h | h | h | h
      · exact Event.noConfusion h
      · rcases (Event.trialDone.injEq ..).mp h with ⟨rfl, rfl⟩
        exact ⟨s, e, henv, rfl⟩
      · exact Event.noConfusion h
      · exact ih (i + 1) k d h
    | calledProcessError rc =>
      simp [trialLoop, henv] at h
    | otherError =>
      simp [trialLoop, henv] at h

theorem reportSection_no_done (f : List ℚ → ℚ) (ds : List ℚ) (k : Nat) (d : ℚ) :
    Event.trialDone k d ∉ reportSection f ds := by
  by_cases h : ds.isEmpty <;> simp [reportSection, h]

theorem trialLoop_const_ok_snd (cmd : List String) :
    ∀ rem i, (trialLoop (fun _ => TrialResult.ok 0 1) cmd i rem).2 =
      some (List.replicate rem (1 : ℚ)) := by
  intro rem
  induction rem with
  | zero =>
    intro i
    simp [trialLoop]
  | succ rem ih =>
    intro i
    simp [trialLoop, ih (i + 1), List.replicate_succ]

theorem measure_const_ok_stats (f : List ℚ → ℚ) (opts : Option String) :
    Event.reportStats (mkStats f (List.replicate NUM_RUNS (1 : ℚ))) ∈
      measure_startup_time (fun _ => TrialResult.ok 0 1) f opts := by
  have h2 := trialLoop_const_ok_snd (base_command opts) NUM_RUNS 1
  unfold measure_startup_time
  rw [h2]
  refine List.mem_append.mpr (Or.inr ?_)
  simp [reportSection, NUM_RUNS]

/-! ### Claims -/

/-- Claim C1: the statistics reporter applies the sample-standard-deviation
function to the collected durations only when there are at least two
samples; with exactly one sample the reported standard deviation is zero. -/
theorem stdev_guard (stdevFn : List ℚ → ℚ) (ds : List ℚ) :
    (ds.length = 1 → (mkStats stdevFn ds).stdDev = 0) ∧
    (2 ≤ ds.length → (mkStats stdevFn ds).stdDev = stdevFn ds) := by
  constructor
  · intro h
    simp [mkStats, h]
  · intro h
    simp only [mkStats]
    rw [if_pos]
    omega

theorem stdev_guard_witness :
    (mkStats (fun _ => 37) [(1 : ℚ)]).stdDev = 0 ∧
    (mkStats (fun _ => 37) [(1 : ℚ), 2]).stdDev = 37 :=
  ⟨(stdev_guard (fun _ => 37) [(1 : ℚ)]).1 (by simp),
   (stdev_guard (fun _ => 37) [(1 : ℚ), 2]).2 (by simp)⟩

/-- Claim C2: the constructed command line contains the adjacent pair
`-e LS_JAVA_OPTS=...` exactly when the tuning-flags value is truthy
(a non-empty string), and the command always decomposes as a prefix
(holding the flag pair when present) followed by the image name and
then the pipeline-definition arguments, which end the command. -/
theorem base_command_env_flag (opts : Option String) :
    (hasEnvFlagPair (base_command opts) = true ↔ jvmTruthy opts = true) ∧
    ∃ pre, base_command opts =
        pre ++ [LOGSTASH_DOCKER_IMAGE, "-e", LOGSTASH_PIPELINE_CONFIG] ∧
      (jvmTruthy opts = true → hasEnvFlagPair pre = true) := by
  match opts with
  | none =>
    refine ⟨by decide, ["docker", "run", "--rm", "-i"], by decide, by decide⟩
  | some s =>
    by_cases hs : s = ""
    · subst hs
      refine ⟨by decide, ["docker", "run", "--rm", "-i"], by decide, by decide⟩
    · have ht : jvmTruthy (some s) = true := (jvmTruthy_some_iff s).mpr hs
      have hflag : isEnvFlag ("LS_JAVA_OPTS=" ++ s) = true := isEnvFlag_assignment s
      have hcmd : base_command (some s) =
          ["docker", "run", "--rm", "-i", "-e", "LS_JAVA_OPTS=" ++ s]
            ++ [LOGSTASH_DOCKER_IMAGE, "-e", LOGSTASH_PIPELINE_CONFIG] := by
        simp [base_command, ht, Option.getD]
      refine ⟨?_, ["docker", "run", "--rm", "-i", "-e", "LS_JAVA_OPTS=" ++ s], hcmd, ?_⟩
      · constructor
        · intro _
          exact ht
        · intro _
          rw [hcmd]
          simp [hasEnvFlagPair, hflag]
      · intro _
        simp [hasEnvFlagPair, hflag]

theorem base_command_env_flag_witness :
    hasEnvFlagPair (base_command (some "x")) = true :=
  (base_command_env_flag (some "x")).1.mpr (by decide)

/-- Claim C3: when trial `j` of a configuration fails with a non-zero
exit code (the earlier trials having succeeded), the failure is reported
with the exit code and the reconstructed command line, no statistics and
no no-data line are printed, no trial after `j` is attempted, and the
main loop still produces a measurement run for every configuration. -/
theorem trial_failure_aborts_config (env : Nat → TrialResult) (f : List ℚ → ℚ)
    (opts : Option String) (rc : Int) (j : Nat)
    (h1 : 1 ≤ j) (h2 : j ≤ NUM_RUNS)
    (hfail : env j = TrialResult.calledProcessError rc)
    (hok : ∀ k, 1 ≤ k → k < j → ∃ s e, env k = TrialResult.ok s e) :
    Event.reportCalledProcessError j rc (base_command opts) ∈
        measure_startup_time env f opts ∧
    (∀ s, Event.reportStats s ∉ measure_startup_time env f opts) ∧
    Event.reportNoData ∉ measure_startup_time env f opts ∧
    (∀ k, j < k → Event.trialAttempt k ∉ measure_startup_time env f opts) ∧
    (∀ genv : Nat → Nat → TrialResult, genv 0 = env →
      (pymain DockerInfoOutcome.success genv f).2.length = JVM_OPTIONS_SETS.length) := by
  have hfail' : ∀ s e, env j ≠ TrialResult.ok s e := by
    intro s e h
    rw [hfail] at h
    exact TrialResult.noConfusion h
  rcases trialLoop_abort env (base_command opts) NUM_RUNS 1 j h1 (by omega)
      (fun k hk hk' => hok k hk hk') hfail' with ⟨hnone, _, hcpe, _, hnot⟩
  have hmeq : measure_startup_time env f opts =
      (trialLoop env (base_command opts) 1 NUM_RUNS).1 := by
    unfold measure_startup_time
    rw [hnone]
  rcases trialLoop_no_reports env (base_command opts) NUM_RUNS 1 with ⟨hs, hn, _⟩
  refine ⟨?_, ?_, ?_, ?_, ?_⟩
  · rw [hmeq]
    exact hcpe rc hfail
  · intro s
    rw [hmeq]
    exact hs s
  · rw [hmeq]
    exact hn
  · intro k hk
    rw [hmeq]
    exact hnot k hk
  · intro genv _
    simp [pymain, check_docker]

theorem trial_failure_aborts_config_witness :
    Event.reportCalledProcessError 1 125 (base_command none) ∈
      measure_startup_time
        (fun i => if i = 1 then TrialResult.calledProcessError 125 else TrialResult.ok 0 1)
        (fun _ => 0) none :=
  (trial_failure_aborts_config _ (fun _ => 0) none 125 1 (by decide) (by decide)
    (by decide) (by intro k hk1 hk2; omega)).1

/-- Claim C9: when trial `j` of a configuration raises an unexpected
exception (the earlier trials having succeeded), it is caught and
reported, the remaining trials of the configuration are aborted with no
statistics printed, and the main loop still produces a measurement run
for every configuration. -/
theorem unexpected_error_aborts_config (env : Nat → TrialResult) (f : List ℚ → ℚ)
    (opts : Option String) (j : Nat)
    (h1 : 1 ≤ j) (h2 : j ≤ NUM_RUNS)
    (hfail : env j = TrialResult.otherError)
    (hok : ∀ k, 1 ≤ k → k < j → ∃ s e, env k = TrialResult.ok s e) :
    Event.reportUnexpectedError j ∈ measure_startup_time env f opts ∧
    (∀ s, Event.reportStats s ∉ measure_startup_time env f opts) ∧
    Event.reportNoData ∉ measure_startup_time env f opts ∧
    (∀ k, j < k → Event.trialAttempt k ∉ measure_startup_time env f opts) ∧
    (∀ genv : Nat → Nat → TrialResult, genv 0 = env →
      (pymain DockerInfoOutcome.success genv f).2.length = JVM_OPTIONS_SETS.length) := by
  have hfail' : ∀ s e, env j ≠ TrialResult.ok s e := by
    intro s e h
    rw [hfail] at h
    exact TrialResult.noConfusion h
  rcases trialLoop_abort env (base_command opts) NUM_RUNS 1 j h1 (by omega)
      (fun k hk hk' => hok k hk hk') hfail' with ⟨hnone, _, _, hoth, hnot⟩
  have hmeq : measure_startup_time env f opts =
      (trialLoop env (base_command opts) 1 NUM_RUNS).1 := by
    unfold measure_startup_time
    rw [hnone]
  rcases trialLoop_no_reports env (base_command opts) NUM_RUNS 1 with ⟨hs, hn, _⟩
  refine ⟨?_, ?_, ?_, ?_, ?_⟩
  · rw [hmeq]
    exact hoth hfail
  · intro s
    rw [hmeq]
    exact hs s
  · rw [hmeq]
    exact hn
  · intro k hk
    rw [hmeq]
    exact hnot k hk
  · intro genv _
    simp [pymain, check_docker]

theorem unexpected_error_aborts_config_witness :
    Event.reportUnexpectedError 2 ∈
      measure_startup_time
        (fun i => if i = 2 then TrialResult.otherError else TrialResult.ok 0 1)
        (fun _ => 0) none :=
  (unexpected_error_aborts_config _ (fun _ => 0) none 2 (by decide) (by decide)
    (by decide) (by
      intro k hk1 hk2
      refine ⟨0, 1, ?_⟩
      have : k ≠ 2 := by omega
      simp [this])).1

/-- Claim C10: the trial-count constant is at least one, and whenever the
statistics reporter is reached the collected durations number exactly the
configured trial count; consequently the no-data branch is never taken. -/
theorem stats_reached_full_count (env : Nat → TrialResult) (f : List ℚ → ℚ)
    (opts : Option String) :
    1 ≤ NUM_RUNS ∧
    Event.reportNoData ∉ measure_startup_time env f opts ∧
    (∀ s, Event.reportStats s ∈ measure_startup_time env f opts →
      s.count = NUM_RUNS) := by
  rcases trialLoop_no_reports env (base_command opts) NUM_RUNS 1 with ⟨hs, hn, _⟩
  cases hr : (trialLoop env (base_command opts) 1 NUM_RUNS).2 with
  | none =>
    have hmeq : measure_startup_time env f opts =
        (trialLoop env (base_command opts) 1 NUM_RUNS).1 := by
      unfold measure_startup_time
      rw [hr]
    refine ⟨by decide, ?_, ?_⟩
    · rw [hmeq]
      exact hn
    · intro s hmem
      rw [hmeq] at hmem
      exact absurd hmem (hs s)
  | some ds =>
    have hlen : ds.length = NUM_RUNS :=
      trialLoop_complete_length env (base_command opts) NUM_RUNS 1 ds hr
    have hne : ds.isEmpty = false := by
      cases ds with
      | nil => simp [NUM_RUNS] at hlen
      | cons d rest => simp
    have hmeq : measure_startup_time env f opts =
        (trialLoop env (base_command opts) 1 NUM_RUNS).1 ++ reportSection f ds := by
      unfold measure_startup_time
      rw [hr]
    refine ⟨by decide, ?_, ?_⟩
    · rw [hmeq]
      intro hmem
      rcases List.mem_append.mp hmem with h | h
      · exact hn h
      · simp [reportSection, hne] at h
    · intro s hmem
      rw [hmeq] at hmem
      rcases List.mem_append.mp hmem with h | h
      · exact absurd h (hs s)
      · simp [reportSection, hne] at h
        rw [h]
        simp [mkStats, hlen]

theorem stats_reached_full_count_witness :
    (mkStats (fun _ => 0) (List.replicate NUM_RUNS (1 : ℚ))).count = NUM_RUNS :=
  (stats_reached_full_count (fun _ => TrialResult.ok 0 1) (fun _ => 0) none).2.2
    (mkStats (fun _ => 0) (List.replicate NUM_RUNS (1 : ℚ)))
    (measure_const_ok_stats (fun _ => 0) none)

/-- Claim C6: the emptiness guard precedes the statistics: an empty
collection produces only the no-valid-data report and the runner stops,
a statistics report can only come from a non-empty collection, and any
statistics report in a measurement run implies the loop completed with a
non-empty duration list. -/
theorem empty_guard_before_stats (f : List ℚ → ℚ) :
    reportSection f [] = [Event.reportNoData] ∧
    (∀ ds s, Event.reportStats s ∈ reportSection f ds → ds ≠ []) ∧
    (∀ env opts s, Event.reportStats s ∈ measure_startup_time env f opts →
      ∃ ds, (trialLoop env (base_command opts) 1 NUM_RUNS).2 = some ds ∧ ds ≠ []) := by
  have hsec : ∀ ds s, Event.reportStats s ∈ reportSection f ds → ds ≠ [] := by
    intro ds s hmem hds
    subst hds
    simp [reportSection] at hmem
  refine ⟨by simp [reportSection], hsec, ?_⟩
  intro env opts s hmem
  rcases trialLoop_no_reports env (base_command opts) NUM_RUNS 1 with ⟨hs, _, _⟩
  cases hr : (trialLoop env (base_command opts) 1 NUM_RUNS).2 with
  | none =>
    have hmeq : measure_startup_time env f opts =
        (trialLoop env (base_command opts) 1 NUM_RUNS).1 := by
      unfold measure_startup_time
      rw [hr]
    rw [hmeq] at hmem
    exact absurd hmem (hs s)
  | some ds =>
    have hmeq : measure_startup_time env f opts =
        (trialLoop env (base_command opts) 1 NUM_RUNS).1 ++ reportSection f ds := by
      unfold measure_startup_time
      rw [hr]
    rw [hmeq] at hmem
    rcases List.mem_append.mp hmem with h | h
    · exact absurd h (hs s)
    · exact ⟨ds, rfl, hsec ds s h⟩

theorem empty_guard_before_stats_witness :
    ∃ ds, (trialLoop (fun _ => TrialResult.ok 0 1) (base_command none) 1 NUM_RUNS).2 =
        some ds ∧ ds ≠ [] :=
  (empty_guard_before_stats (fun _ => 0)).2.2 (fun _ => TrialResult.ok 0 1) none
    (mkStats (fun _ => 0) (List.replicate NUM_RUNS (1 : ℚ)))
    (measure_const_ok_stats (fun _ => 0) none)

theorem trialLoop_const_ok_done (cmd : List String) (rem i : Nat) (h : 1 ≤ rem) :
    Event.trialDone i ((1 : ℚ) - 0) ∈
      (trialLoop (fun _ => TrialResult.ok 0 1) cmd i rem).1 := by
  obtain ⟨r, rfl⟩ : ∃ r, rem = r + 1 := ⟨rem - 1, by omega⟩
  simp [trialLoop]

theorem measure_const_ok_done (f : List ℚ → ℚ) (opts : Option String) :
    Event.trialDone 1 ((1 : ℚ) - 0) ∈
      measure_startup_time (fun _ => TrialResult.ok 0 1) f opts := by
  unfold measure_startup_time
  rw [trialLoop_const_ok_snd (base_command opts) NUM_RUNS 1]
  exact List.mem_append.mpr
    (Or.inl (trialLoop_const_ok_done (base_command opts) NUM_RUNS 1 (by decide)))

/-- Claim C7: under a monotone wall clock (each successful end reading is
at least the matching start reading), every duration recorded during a
measurement run is non-negative. -/
theorem durations_nonneg (env : Nat → TrialResult) (f : List ℚ → ℚ)
    (opts : Option String)
    (hmono : ∀ i s e, env i = TrialResult.ok s e → s ≤ e) :
    ∀ k d, Event.trialDone k d ∈ measure_startup_time env f opts → 0 ≤ d := by
  intro k d hmem
  have hloop : Event.trialDone k d ∈
      (trialLoop env (base_command opts) 1 NUM_RUNS).1 := by
    cases hr : (trialLoop env (base_command opts) 1 NUM_RUNS).2 with
    | none =>
      have hmeq : measure_startup_time env f opts =
          (trialLoop env (base_command opts) 1 NUM_RUNS).1 := by
        unfold measure_startup_time
        rw [hr]
      rwa [hmeq] at hmem
    | some ds =>
      have hmeq : measure_startup_time env f opts =
          (trialLoop env (base_command opts) 1 NUM_RUNS).1 ++ reportSection f ds := by
        unfold measure_startup_time
        rw [hr]
      rw [hmeq] at hmem
      rcases List.mem_append.mp hmem with h | h
      · exact h
      · exact absurd h (reportSection_no_done f ds k d)
  rcases trialLoop_done_events env (base_command opts) NUM_RUNS 1 k d hloop
    with ⟨s, e, henv, rfl⟩
  have h := hmono k s e henv
  linarith

theorem durations_nonneg_witness : 0 ≤ (1 : ℚ) - 0 :=
  durations_nonneg (fun _ => TrialResult.ok 0 1) (fun _ => 0) none
    (by
      intro i s e h
      have h' : TrialResult.ok 0 1 = TrialResult.ok s e := h
      injection h' with h1 h2
      rw [← h1, ← h2]
      norm_num)
    1 ((1 : ℚ) - 0) (measure_const_ok_done (fun _ => 0) none)

/-- Claim C8: after a successful trial the loop sleeps exactly one second
and the next event is the next trial's attempt, so consecutive trials are
separated by exactly the fixed one-second sleep; moreover every sleep the
loop performs is that one-second sleep. -/
theorem sleep_between_trials (env : Nat → TrialResult) (cmd : List String)
    (i rem : Nat) (s e : ℚ)
    (henv : env i = TrialResult.ok s e) (hrem : 2 ≤ rem) :
    (∃ tail, (trialLoop env cmd i rem).1 =
        Event.trialAttempt i :: Event.trialDone i (e - s) :: Event.sleepSec 1 :: tail ∧
      tail.head? = some (Event.trialAttempt (i + 1))) ∧
    (∀ n, Event.sleepSec n ∈ (trialLoop env cmd i rem).1 → n = 1) := by
  constructor
  · obtain ⟨r, rfl⟩ : ∃ r, rem = r + 1 := ⟨rem - 1, by omega⟩
    refine ⟨(trialLoop env cmd (i + 1) r).1, ?_, ?_⟩
    · simp [trialLoop, henv]
    · exact trialLoop_head env cmd r (i + 1) (by omega)
  · exact (trialLoop_no_reports env cmd rem i).2.2

theorem sleep_between_trials_witness :
    ∃ tail, (trialLoop (fun _ => TrialResult.ok 0 1) (base_command none) 1 NUM_RUNS).1 =
        Event.trialAttempt 1 :: Event.trialDone 1 ((1 : ℚ) - 0) ::
          Event.sleepSec 1 :: tail ∧
      tail.head? = some (Event.trialAttempt 2) :=
  (sleep_between_trials (fun _ => TrialResult.ok 0 1) (base_command none) 1 NUM_RUNS 0 1
    rfl (by decide)).1

theorem foldl_min_spec (xs : List ℚ) :
    ∀ x : ℚ, (xs.foldl min x = x ∨ xs.foldl min x ∈ xs) ∧
      xs.foldl min x ≤ x ∧ ∀ y ∈ xs, xs.foldl min x ≤ y := by
  induction xs with
  | nil =>
    intro x
    simp
  | cons a xs ih =>
    intro x
    rcases ih (min x a) with ⟨hmem, hle, hall⟩
    simp only [List.foldl_cons]
    refine ⟨?_, ?_, ?_⟩
    · rcases hmem with h | h
      · rcases min_choice x a with hc | hc
        · exact Or.inl (h.trans hc)
        · rw [h.trans hc]
          exact Or.inr (List.mem_cons_self a xs)
      · exact Or.inr (List.mem_cons_of_mem a h)
    · exact le_trans hle (min_le_left x a)
    · intro y hy
      rcases List.mem_cons.mp hy with hy | hy
      · rw [hy]
        exact le_trans hle (min_le_right x a)
      · exact hall y hy

theorem foldl_max_spec (xs : List ℚ) :
    ∀ x : ℚ, (xs.foldl max x = x ∨ xs.foldl max x ∈ xs) ∧
      x ≤ xs.foldl max x ∧ ∀ y ∈ xs, y ≤ xs.foldl max x := by
  induction xs with
  | nil =>
    intro x
    simp
  | cons a xs ih =>
    intro x
    rcases ih (max x a) with ⟨hmem, hle, hall⟩
    simp only [List.foldl_cons]
    refine ⟨?_, ?_, ?_⟩
    · rcases hmem with h | h
      · rcases max_choice x a with hc | hc
        · exact Or.inl (h.trans hc)
        · rw [h.trans hc]
          exact Or.inr (List.mem_cons_self a xs)
      · exact Or.inr (List.mem_cons_of_mem a h)
    · exact le_trans (le_max_left x a) hle
    · intro y hy
      rcases List.mem_cons.mp hy with hy | hy
      · rw [hy]
        exact le_trans (le_max_right x a) hle
      · exact hall y hy

/-- Claim C5: for every non-empty duration list, the reported minimum is
a member of the list bounding it below, the reported maximum is a member
bounding it above, and the reported mean times the sample count equals
the sum of exactly the collected durations. -/
theorem min_max_mean_exact (f : List ℚ → ℚ) (ds : List ℚ) (h : ds ≠ []) :
    (mkStats f ds).minT ∈ ds ∧ (∀ x ∈ ds, (mkStats f ds).minT ≤ x) ∧
    (mkStats f ds).maxT ∈ ds ∧ (∀ x ∈ ds, x ≤ (mkStats f ds).maxT) ∧
    (mkStats f ds).avgT * (ds.length : ℚ) = ds.sum := by
  match ds, h with
  | d :: rest, _ =>
    rcases foldl_min_spec rest d with ⟨hmem, hle, hall⟩
    rcases foldl_max_spec rest d with ⟨hmem', hle', hall'⟩
    refine ⟨?_, ?_, ?_, ?_, ?_⟩
    · simp only [mkStats, pyMin]
      rcases hmem with hm | hm
      · rw [hm]
        exact List.mem_cons_self d rest
      · exact List.mem_cons_of_mem d hm
    · intro x hx
      simp only [mkStats, pyMin]
      rcases List.mem_cons.mp hx with rfl | hx
      · exact hle
      · exact hall x hx
    · simp only [mkStats, pyMax]
      rcases hmem' with hm | hm
      · rw [hm]
        exact List.mem_cons_self d rest
      · exact List.mem_cons_of_mem d hm
    · intro x hx
      simp only [mkStats, pyMax]
      rcases List.mem_cons.mp hx with rfl | hx
      · exact hle'
      · exact hall' x hx
    · simp only [mkStats, pyMean]
      have hne : (((d :: rest).length : Nat) : ℚ) ≠ 0 :=
        Nat.cast_ne_zero.mpr (by simp)
      exact div_mul_cancel₀ _ hne

theorem min_max_mean_exact_witness :
    (mkStats (fun _ => 0) [(2 : ℚ), 1]).minT ∈ [(2 : ℚ), 1] ∧
    (mkStats (fun _ => 0) [(2 : ℚ), 1]).maxT ∈ [(2 : ℚ), 1] ∧
    (mkStats (fun _ => 0) [(2 : ℚ), 1]).avgT * (([(2 : ℚ), 1] : List ℚ).length : ℚ) =
      ([(2 : ℚ), 1] : List ℚ).sum :=
  ⟨(min_max_mean_exact (fun _ => 0) [(2 : ℚ), 1] (by simp)).1,
   (min_max_mean_exact (fun _ => 0) [(2 : ℚ), 1] (by simp)).2.2.1,
   (min_max_mean_exact (fun _ => 0) [(2 : ℚ), 1] (by simp)).2.2.2.2⟩

/-- Claim C4: when the container runtime is unavailable the program exits
with code 1 having started no measurement, the availability check having
printed at least one error line; when it is available the program
measures every configured option set and exits with code 0. -/
theorem docker_check_gates_run (d : DockerInfoOutcome)
    (env : Nat → Nat → TrialResult) (f : List ℚ → ℚ) :
    (check_docker d = false →
      pymain d env f = (1, []) ∧ 1 ≤ check_docker_error_lines d) ∧
    (check_docker d = true →
      (pymain d env f).1 = 0 ∧
      (pymain d env f).2.length = JVM_OPTIONS_SETS.length) := by
  cases d with
  | success =>
    constructor
    · intro h
      exact absurd h (by decide)
    · intro _
      constructor
      · simp [pymain, check_docker]
      · simp [pymain, check_docker]
  | fileNotFound =>
    constructor
    · intro _
      exact ⟨by simp [pymain, check_docker], by decide⟩
    · intro h
      exact absurd h (by decide)
  | calledProcessError =>
    constructor
    · intro _
      exact ⟨by simp [pymain, check_docker], by decide⟩
    · intro h
      exact absurd h (by decide)

theorem docker_check_gates_run_witness :
    pymain DockerInfoOutcome.fileNotFound (fun _ _ => TrialResult.otherError)
      (fun _ => 0) = (1, []) ∧
    (pymain DockerInfoOutcome.success (fun _ _ => TrialResult.otherError)
      (fun _ => 0)).1 = 0 :=
  ⟨((docker_check_gates_run DockerInfoOutcome.fileNotFound
      (fun _ _ => TrialResult.otherError) (fun _ => 0)).1 (by decide)).1,
   ((docker_check_gates_run DockerInfoOutcome.success
      (fun _ _ => TrialResult.otherError) (fun _ => 0)).2 (by decide)).1⟩

end LogstashBench
